import Mathlib

/-!
Verification of the billboard-logos-cdn admin console services.

Shallow embedding of the repository's service layer:
* `TokenManager` (services/mqtt-broker.js, second module in the file):
  XOR-with-machine-id obfuscation over `btoa`/`atob`, and localStorage
  token retrieval (`getStoredToken`).
* `GitHubUploadService.makeApiRequest` (github-upload-service.js):
  the 3-attempt retry loop over `fetch`.
* `GitHubService` manifest handling (services/github.js):
  `getCurrentManifest`, `validateAndFixManifest`, `createDefaultManifest`,
  `addLogoToManifest`.
* `MqttBroker` (services/mqtt-broker.js) connection state machine and
  `DeviceControlService` (services/device-control.js) command topics,
  with the topic/option constants of config/mqtt.js.
* `UpdateService.triggerUpdate` (update-service.js).

Strings are modelled as Lean `String` where only equality matters and as
`List Nat` of UTF-16 char codes where the code manipulates char codes
(`charCodeAt` / `fromCharCode` / `btoa` / `atob`).  JavaScript numbers are
modelled as `Nat`/`Int`; timestamps as `Int`.  Fallible operations return
`Option`/`Except`.
-/

/-! ## Browser `btoa` / `atob` (base64 over latin1 char codes)

`btoa` throws (here: `none`) when some char code is ≥ 256; `atob` is the
forgiving base64 decoder (padding optional, leftover bits discarded,
`=` allowed only at the very end).  ASCII-whitespace tolerance of the
browser decoder is not modelled; no caller here feeds it whitespace. -/

/-- Base64 alphabet as char codes: `A-Z`, `a-z`, `0-9`, `+`, `/`. -/
def b64chars : List Nat :=
  (List.range 26).map (fun i => i + 65) ++ (List.range 26).map (fun i => i + 97) ++
    (List.range 10).map (fun i => i + 48) ++ [43, 47]

/-- Char code of the base64 digit for a sextet value. -/
def alphaChar (v : Nat) : Nat := b64chars.getD v 0

/-- Sextet value of a base64 digit char code (`none` for a non-alphabet char). -/
def decodeChar (c : Nat) : Option Nat :=
  let i := b64chars.findIdx (fun x => x == c)
  if i < b64chars.length then some i else none

/-- Base64 encoding of a byte list, three bytes to four chars, `=`-padded. -/
def btoaChunks : List Nat → List Nat
  | [] => []
  | [a] => [alphaChar (a / 4), alphaChar (a % 4 * 16), 61, 61]
  | [a, b] => [alphaChar (a / 4), alphaChar (a % 4 * 16 + b / 16), alphaChar (b % 16 * 4), 61]
  | a :: b :: c :: rest =>
      alphaChar (a / 4) :: alphaChar (a % 4 * 16 + b / 16) ::
        alphaChar (b % 16 * 4 + c / 64) :: alphaChar (c % 64) :: btoaChunks rest

/-- Browser `btoa`: `none` models the `InvalidCharacterError` throw on
char codes ≥ 256. -/
def btoa (l : List Nat) : Option (List Nat) :=
  if l.all (fun c => c < 256) then some (btoaChunks l) else none

/-- Browser `atob` (forgiving base64): `none` models the decode throw. -/
def atob : List Nat → Option (List Nat)
  | [] => some []
  | [w, x] =>
      match decodeChar w, decodeChar x with
      | some a, some b => some [a * 4 + b / 16]
      | _, _ => none
  | [w, x, y] =>
      match decodeChar w, decodeChar x, decodeChar y with
      | some a, some b, some c => some [a * 4 + b / 16, b % 16 * 16 + c / 4]
      | _, _, _ => none
  | w :: x :: y :: z :: rest =>
      match decodeChar w, decodeChar x with
      | some a, some b =>
          if y = 61 then
            if z = 61 ∧ rest = [] then some [a * 4 + b / 16] else none
          else
            match decodeChar y with
            | some c =>
                if z = 61 then
                  if rest = [] then some [a * 4 + b / 16, b % 16 * 16 + c / 4] else none
                else
                  match decodeChar z with
                  | some d =>
                      (atob rest).map
                        (fun t => (a * 4 + b / 16) :: (b % 16 * 16 + c / 4) ::
                          (c % 4 * 64 + d) :: t)
                  | none => none
            | none => none
      | _, _ => none
  | _ => none

theorem decodeChar_alphaChar : ∀ v, v < 64 → decodeChar (alphaChar v) = some v := by decide

theorem alphaChar_ne_pad : ∀ v, v < 64 → alphaChar v ≠ 61 := by decide

/-- Decoding inverts encoding on byte lists. -/
theorem atob_btoaChunks : ∀ l : List Nat, (∀ c ∈ l, c < 256) → atob (btoaChunks l) = some l
  | [], _ => by decide
  | [a], h => by
      have ha : a < 256 := h a (by simp)
      have h1 : a / 4 < 64 := by omega
      have h2 : a % 4 * 16 < 64 := by omega
      simp only [btoaChunks, atob, decodeChar_alphaChar _ h1, decodeChar_alphaChar _ h2]
      simp
      omega
  | [a, b], h => by
      have ha : a < 256 := h a (by simp)
      have hb : b < 256 := h b (by simp)
      have h1 : a / 4 < 64 := by omega
      have h2 : a % 4 * 16 + b / 16 < 64 := by omega
      have h3 : b % 16 * 4 < 64 := by omega
      simp only [btoaChunks, atob, decodeChar_alphaChar _ h1, decodeChar_alphaChar _ h2,
        decodeChar_alphaChar _ h3]
      simp [alphaChar_ne_pad _ h3]
      omega
  | a :: b :: c :: rest, h => by
      have ha : a < 256 := h a (by simp)
      have hb : b < 256 := h b (by simp)
      have hc : c < 256 := h c (by simp)
      have hrest : ∀ x ∈ rest, x < 256 := fun x hx => h x (by simp [hx])
      have ih := atob_btoaChunks rest hrest
      have h1 : a / 4 < 64 := by omega
      have h2 : a % 4 * 16 + b / 16 < 64 := by omega
      have h3 : b % 16 * 4 + c / 64 < 64 := by omega
      have h4 : c % 64 < 64 := by omega
      simp only [btoaChunks, atob, decodeChar_alphaChar _ h1, decodeChar_alphaChar _ h2,
        decodeChar_alphaChar _ h3, decodeChar_alphaChar _ h4, ih]
      simp [alphaChar_ne_pad _ h3, alphaChar_ne_pad _ h4]
      refine ⟨by omega, by omega, by omega⟩

/-! ## TokenManager (services/mqtt-broker.js)

`machineId` is `Math.abs(hash).toString(16)`, a nonempty string of hex
digit chars; tokens and keys are lists of char codes. -/

/-- Char code produced by `key.charCodeAt(i % key.length)`; `0` models the
`NaN` an empty key would give, which `^` coerces to `0`. -/
def keyCharAt (key : List Nat) (i : Nat) : Nat := key.getD (i % key.length) 0

/-- Per-character XOR with the repeating key, from index `i`. -/
def xorWithKey (key : List Nat) : Nat → List Nat → List Nat
  | _, [] => []
  | i, c :: cs => (c ^^^ keyCharAt key i) :: xorWithKey key (i + 1) cs

/-- TokenManager.obfuscateToken: XOR with the machine-id key, then `btoa`. -/
def obfuscateToken (key token : List Nat) : Option (List Nat) :=
  btoa (xorWithKey key 0 token)

/-- TokenManager.deobfuscateToken: `atob`, then the same XOR; `none` models
the `catch` branch returning `null`. -/
def deobfuscateToken (key obf : List Nat) : Option (List Nat) :=
  (atob obf).map (xorWithKey key 0)

/-- Char codes a machine id can contain: `0-9` and `a-f` (hex digits of
`Math.abs(hash).toString(16)`). -/
def isMachineIdChar (c : Nat) : Prop := (48 ≤ c ∧ c ≤ 57) ∨ (97 ≤ c ∧ c ≤ 102)

instance (c : Nat) : Decidable (isMachineIdChar c) := by
  unfold isMachineIdChar
  infer_instance

theorem xorWithKey_involutive (key : List Nat) :
    ∀ (i : Nat) (l : List Nat), xorWithKey key i (xorWithKey key i l) = l := by
  intro i l
  induction l generalizing i with
  | nil => rfl
  | cons c cs ih =>
      simp only [xorWithKey, Nat.xor_cancel_right, List.cons.injEq, true_and]
      exact ih (i + 1)

theorem keyCharAt_lt (key : List Nat) (hk : ∀ c ∈ key, c < 256) (i : Nat) :
    keyCharAt key i < 256 := by
  unfold keyCharAt
  rcases h : key[(i % key.length)]? with _ | c
  · simp [List.getD_eq_getElem?_getD, h]
  · have hm : c ∈ key := List.getElem?_mem h
    simpa [List.getD_eq_getElem?_getD, h] using hk c hm

theorem xorWithKey_lt (key : List Nat) (hk : ∀ c ∈ key, c < 256) :
    ∀ (i : Nat) (l : List Nat), (∀ c ∈ l, c < 256) → ∀ c ∈ xorWithKey key i l, c < 256 := by
  intro i l
  induction l generalizing i with
  | nil => intro _ c hc; simp [xorWithKey] at hc
  | cons a as ih =>
      intro hl c hc
      simp only [xorWithKey, List.mem_cons] at hc
      rcases hc with hc | hc
      · subst hc
        have h1 : a < 2 ^ 8 := hl a (by simp)
        have h2 : keyCharAt key i < 2 ^ 8 := keyCharAt_lt key hk i
        exact Nat.xor_lt_two_pow h1 h2
      · exact ih (i + 1) (fun x hx => hl x (by simp [hx])) c hc

theorem machineIdChar_lt (c : Nat) (h : isMachineIdChar c) : c < 256 := by
  rcases h with ⟨_, h2⟩ | ⟨_, h2⟩ <;> omega

/-- Shared core of the obfuscation roundtrip: for a sub-256 key and token,
`deobfuscateToken` inverts `obfuscateToken`. -/
theorem deobfuscate_obfuscate (key token : List Nat)
    (hk : ∀ c ∈ key, c < 256) (ht : ∀ c ∈ token, c < 256) :
    (obfuscateToken key token).bind (deobfuscateToken key) = some token := by
  have hx : ∀ c ∈ xorWithKey key 0 token, c < 256 := xorWithKey_lt key hk 0 token ht
  have hb : btoa (xorWithKey key 0 token) = some (btoaChunks (xorWithKey key 0 token)) := by
    unfold btoa
    rw [if_pos]
    rw [List.all_eq_true]
    intro c hc
    simpa using hx c hc
  unfold obfuscateToken deobfuscateToken
  rw [hb, Option.some_bind, atob_btoaChunks _ hx]
  simp [xorWithKey_involutive]

/-- Result of a successful `TokenManager.getStoredToken`. -/
structure StoredTokenResult where
  token : List Nat
  userLogin : Option String
  storedAt : Int
deriving DecidableEq

/-- The parsed `github-auth-data` record in localStorage.  `token` is the
obfuscated token's char codes; the ISO date strings `storedAt`/`expiresAt`
are modelled as timestamps. -/
structure AuthData where
  token : List Nat
  userLogin : Option String
  machineId : List Nat
  storedAt : Int
  expiresAt : Int
deriving DecidableEq

/-- TokenManager.getStoredToken, as a function of the current machine id,
the current time and the (already JSON-parsed) stored record; returns the
result and the storage content afterwards (`none` = record removed).
The `!token` truthiness check makes an empty deobfuscated token fall into
the clear-and-return-null branch. -/
def getStoredToken (machineId : List Nat) (now : Int) (stored : Option AuthData) :
    Option StoredTokenResult × Option AuthData :=
  match stored with
  | none => (none, none)
  | some a =>
      if a.machineId ≠ machineId then (none, none)
      else if a.expiresAt < now then (none, none)
      else
        match deobfuscateToken machineId a.token with
        | none => (none, none)
        | some t =>
            if t = [] then (none, none)
            else (some ⟨t, a.userLogin, a.storedAt⟩, stored)

/-! ## GitHubUploadService.makeApiRequest (github-upload-service.js)

One `fetch` attempt is abstracted by its observable outcome; the body of
the retry loop is embedded branch by branch:
* `response.ok` → return the response;
* 401 → throw "Authentication failed - Invalid token" (the catch always
  rethrows it, because the message contains "Authentication failed");
* 403 whose body mentions the rate limit → delay and `continue`
  (also on the last attempt, where the loop then exits and the function
  resolves with `undefined`);
* 403 otherwise / 404 / other non-ok statuses / network errors → throw,
  which the catch rethrows on the last attempt (or whenever the message
  contains "Authentication failed") and otherwise retries. -/

/-- Observable outcome of the `fetch` of one attempt. -/
inductive FetchOutcome where
  | ok
  | status401
  | rateLimited403
  | denied403
  | status404
  | otherStatus (code : Nat)
  | networkError (mentionsAuthFailed : Bool)
deriving DecidableEq

/-- Errors `makeApiRequest` can reject with. -/
inductive ApiError where
  | authFailed
  | accessDenied
  | notFound
  | requestFailed (code : Nat)
  | network (mentionsAuthFailed : Bool)
deriving DecidableEq

/-- The retry loop from attempt `attempt`; `fuel` bounds the recursion
(callers pass `retries + 1`, enough for the whole loop).  Returns the
promise outcome (`Except.ok (some i)` = resolves with the response of
attempt `i`, `Except.ok none` = resolves with `undefined` after the loop
exits) and the list of attempts on which a fetch was issued. -/
def makeApiRequestGo (f : Nat → FetchOutcome) (retries : Nat) :
    Nat → Nat → Except ApiError (Option Nat) × List Nat
  | 0, _ => (Except.ok none, [])
  | fuel + 1, attempt =>
      if retries < attempt then (Except.ok none, [])
      else
        match f attempt with
        | .ok => (Except.ok (some attempt), [attempt])
        | .status401 => (Except.error ApiError.authFailed, [attempt])
        | .rateLimited403 =>
            ((makeApiRequestGo f retries fuel (attempt + 1)).1,
              attempt :: (makeApiRequestGo f retries fuel (attempt + 1)).2)
        | .denied403 =>
            if attempt = retries then (Except.error ApiError.accessDenied, [attempt])
            else
              ((makeApiRequestGo f retries fuel (attempt + 1)).1,
                attempt :: (makeApiRequestGo f retries fuel (attempt + 1)).2)
        | .status404 =>
            if attempt = retries then (Except.error ApiError.notFound, [attempt])
            else
              ((makeApiRequestGo f retries fuel (attempt + 1)).1,
                attempt :: (makeApiRequestGo f retries fuel (attempt + 1)).2)
        | .otherStatus code =>
            if attempt = retries then (Except.error (ApiError.requestFailed code), [attempt])
            else
              ((makeApiRequestGo f retries fuel (attempt + 1)).1,
                attempt :: (makeApiRequestGo f retries fuel (attempt + 1)).2)
        | .networkError am =>
            if attempt = retries ∨ am = true then (Except.error (ApiError.network am), [attempt])
            else
              ((makeApiRequestGo f retries fuel (attempt + 1)).1,
                attempt :: (makeApiRequestGo f retries fuel (attempt + 1)).2)

/-- GitHubUploadService.makeApiRequest; the `retries` parameter defaults
to 3 as in the source. -/
def makeApiRequest (f : Nat → FetchOutcome) (retries : Nat := 3) :
    Except ApiError (Option Nat) × List Nat :=
  makeApiRequestGo f retries (retries + 1) 1

theorem makeApiRequestGo_length (f : Nat → FetchOutcome) (retries : Nat) :
    ∀ fuel attempt, (makeApiRequestGo f retries fuel attempt).2.length ≤ retries + 1 - attempt := by
  intro fuel
  induction fuel with
  | zero => intro attempt; simp [makeApiRequestGo]
  | succ fuel ih =>
      intro attempt
      by_cases hlt : retries < attempt
      · simp [makeApiRequestGo, hlt]
      · have hle := ih (attempt + 1)
        unfold makeApiRequestGo
        rw [if_neg hlt]
        cases hf : f attempt with
        | ok => simp <;> omega
        | status401 => simp <;> omega
        | rateLimited403 => simp <;> omega
        | denied403 => by_cases he : attempt = retries <;> simp [he] <;> try omega
        | status404 => by_cases he : attempt = retries <;> simp [he] <;> try omega
        | otherStatus code => by_cases he : attempt = retries <;> simp [he] <;> try omega
        | networkError am =>
            by_cases he : attempt = retries <;> cases am <;> simp [he] <;> try omega

theorem makeApiRequestGo_past (f : Nat → FetchOutcome) (retries : Nat) :
    ∀ fuel attempt, retries < attempt →
      makeApiRequestGo f retries fuel attempt = (Except.ok none, []) := by
  intro fuel attempt h
  cases fuel with
  | zero => rfl
  | succ fuel =>
      unfold makeApiRequestGo
      rw [if_pos h]

theorem makeApiRequestGo_final (f : Nat → FetchOutcome) (retries : Nat) :
    ∀ fuel attempt, attempt + fuel = retries + 2 →
      retries ∈ (makeApiRequestGo f retries fuel attempt).2 → f retries ≠ FetchOutcome.ok →
      (f retries = FetchOutcome.rateLimited403 ∧
        (makeApiRequestGo f retries fuel attempt).1 = Except.ok none) ∨
      ∃ e, (makeApiRequestGo f retries fuel attempt).1 = Except.error e := by
  intro fuel
  induction fuel with
  | zero =>
      intro attempt hfuel hmem _
      simp [makeApiRequestGo] at hmem
  | succ fuel ih =>
      intro attempt hfuel hmem hok
      by_cases hlt : retries < attempt
      · rw [makeApiRequestGo_past f retries (fuel + 1) attempt hlt] at hmem
        simp at hmem
      · simp only [makeApiRequestGo, if_neg hlt] at hmem ⊢
        cases hf : f attempt with
        | ok =>
            simp only [hf] at hmem
            simp at hmem
            exact absurd (hmem ▸ hf) hok
        | status401 =>
            simp only [hf]
            exact Or.inr ⟨ApiError.authFailed, rfl⟩
        | rateLimited403 =>
            simp only [hf] at hmem ⊢
            by_cases heq : attempt = retries
            · subst heq
              refine Or.inl ⟨hf, ?_⟩
              simp [makeApiRequestGo_past f attempt fuel (attempt + 1) (by omega)]
            · have hmem2 : retries ∈ (makeApiRequestGo f retries fuel (attempt + 1)).2 := by
                simp only [List.mem_cons] at hmem
                exact hmem.resolve_left (fun hh => heq hh.symm)
              exact ih (attempt + 1) (by omega) hmem2 hok
        | denied403 =>
            simp only [hf] at hmem ⊢
            by_cases heq : attempt = retries
            · rw [if_pos heq]
              exact Or.inr ⟨ApiError.accessDenied, rfl⟩
            · rw [if_neg heq] at hmem ⊢
              have hmem2 : retries ∈ (makeApiRequestGo f retries fuel (attempt + 1)).2 := by
                simp only [List.mem_cons] at hmem
                exact hmem.resolve_left (fun hh => heq hh.symm)
              exact ih (attempt + 1) (by omega) hmem2 hok
        | status404 =>
            simp only [hf] at hmem ⊢
            by_cases heq : attempt = retries
            · rw [if_pos heq]
              exact Or.inr ⟨ApiError.notFound, rfl⟩
            · rw [if_neg heq] at hmem ⊢
              have hmem2 : retries ∈ (makeApiRequestGo f retries fuel (attempt + 1)).2 := by
                simp only [List.mem_cons] at hmem
                exact hmem.resolve_left (fun hh => heq hh.symm)
              exact ih (attempt + 1) (by omega) hmem2 hok
        | otherStatus code =>
            simp only [hf] at hmem ⊢
            by_cases heq : attempt = retries
            · rw [if_pos heq]
              exact Or.inr ⟨ApiError.requestFailed code, rfl⟩
            · rw [if_neg heq] at hmem ⊢
              have hmem2 : retries ∈ (makeApiRequestGo f retries fuel (attempt + 1)).2 := by
                simp only [List.mem_cons] at hmem
                exact hmem.resolve_left (fun hh => heq hh.symm)
              exact ih (attempt + 1) (by omega) hmem2 hok
        | networkError am =>
            simp only [hf] at hmem ⊢
            by_cases hc : attempt = retries ∨ am = true
            · rw [if_pos hc]
              exact Or.inr ⟨ApiError.network am, rfl⟩
            · rw [if_neg hc] at hmem ⊢
              have heq : ¬ attempt = retries := fun hh => hc (Or.inl hh)
              have hmem2 : retries ∈ (makeApiRequestGo f retries fuel (attempt + 1)).2 := by
                simp only [List.mem_cons] at hmem
                exact hmem.resolve_left (fun hh => heq hh.symm)
              exact ih (attempt + 1) (by omega) hmem2 hok

theorem makeApiRequestGo_allRateLimited (f : Nat → FetchOutcome) (retries : Nat)
    (hall : ∀ i, 1 ≤ i → i ≤ retries → f i = FetchOutcome.rateLimited403) :
    ∀ fuel attempt, 1 ≤ attempt →
      (makeApiRequestGo f retries fuel attempt).1 = Except.ok none := by
  intro fuel
  induction fuel with
  | zero => intro attempt _; simp [makeApiRequestGo]
  | succ fuel ih =>
      intro attempt h1
      by_cases hlt : retries < attempt
      · simp [makeApiRequestGo, hlt]
      · have hf : f attempt = FetchOutcome.rateLimited403 := hall attempt h1 (by omega)
        simp only [makeApiRequestGo, if_neg hlt, hf]
        exact ih (attempt + 1) (by omega)

/-! ## GitHubService manifest handling (services/github.js)

JSON fields are modelled by `JVal`: `absent` (missing from the document),
`otherFalsy` (present but falsy: `null`, `0`, `""`, `false`),
`otherTruthy` (present, truthy, but not a value of the expected shape,
e.g. a string where an object is expected), or `val` (a value of the
expected shape).  For `version`, `lastUpdated` and `metadata` only
present-vs-falsy matters in the embedded code paths, so they are plain
`Option`s.  `Date.now()`-derived strings are passed in as parameters. -/

/-- A JSON field value relative to an expected shape `α`. -/
inductive JVal (α : Type) where
  | absent
  | otherFalsy
  | otherTruthy
  | val (a : α)
deriving DecidableEq

/-- JavaScript truthiness test `!x` on a `JVal`. -/
def JVal.jsFalsy {α : Type} : JVal α → Bool
  | .absent => true
  | .otherFalsy => true
  | _ => false

/-- A logo entry of the manifest; only the fields the embedded code reads. -/
structure Logo where
  id : String
  priority : Int
deriving DecidableEq

/-- The manifest `settings` object. -/
structure ManifestSettings where
  logoMode : String
  logoLoopDuration : Int
  schedules : List String
deriving DecidableEq

/-- The manifest `metadata` object. -/
structure ManifestMetadata where
  author : String
  description : String
  apiVersion : String
  lastModifiedBy : Option String
deriving DecidableEq

/-- The manifest document. -/
structure Manifest where
  version : Option String
  lastUpdated : Option String
  logos : JVal (List Logo)
  settings : JVal ManifestSettings
  metadata : Option ManifestMetadata
deriving DecidableEq

/-- Default settings installed by `validateAndFixManifest` / `createDefaultManifest`. -/
def defaultSettings : ManifestSettings := ⟨"loop", 30, []⟩

/-- Default metadata installed by `validateAndFixManifest` / `createDefaultManifest`. -/
def defaultMetadata : ManifestMetadata :=
  ⟨"Admin Web Interface", "Billboard logo manifest", "v1", none⟩

/-- GitHubService.createDefaultManifest (version/date strings passed in). -/
def createDefaultManifest (nowVersion nowISO : String) : Manifest :=
  ⟨some nowVersion, some nowISO, JVal.val [], JVal.val defaultSettings, some defaultMetadata⟩

/-- GitHubService.validateAndFixManifest: `logos` is replaced when falsy or
not an array (`!logos || !Array.isArray(logos)`); `settings` and `metadata`
only when falsy (`!settings`, `!metadata`), so a truthy non-object value
survives there. -/
def validateAndFixManifest (nowVersion nowISO : String) (m : Manifest) : Manifest where
  version := match m.version with
    | none => some nowVersion
    | some v => some v
  lastUpdated := match m.lastUpdated with
    | none => some nowISO
    | some d => some d
  logos := match m.logos with
    | JVal.val l => JVal.val l
    | _ => JVal.val []
  settings := if m.settings.jsFalsy then JVal.val defaultSettings else m.settings
  metadata := match m.metadata with
    | none => some defaultMetadata
    | some md => some md

/-- Outcome of `getFileInfo("manifest.json")` followed by `atob` + `JSON.parse`:
no file, a parsed document, or any thrown error on the way. -/
inductive ManifestFetch where
  | noFile
  | loadError
  | parsed (m : Manifest)
deriving DecidableEq

/-- GitHubService.getCurrentManifest. -/
def getCurrentManifest (nowVersion nowISO : String) : ManifestFetch → Manifest
  | .parsed m => validateAndFixManifest nowVersion nowISO m
  | _ => createDefaultManifest nowVersion nowISO

/-- The comparator `(a, b) => a.priority - b.priority` as a sort. -/
def sortLogosByPriority (l : List Logo) : List Logo :=
  l.mergeSort (fun a b => decide (a.priority ≤ b.priority))

/-- GitHubService.addLogoToManifest.  `none` models the TypeError thrown by
`logos.filter` when `logos` is a truthy non-array. -/
def addLogoToManifest (nowVersion nowISO : String) (m : Manifest) (logo : Logo) :
    Option Manifest :=
  match m.logos with
  | JVal.otherTruthy => none
  | lv =>
      some { m with
        logos := JVal.val (sortLogosByPriority
          (((match lv with | JVal.val l => l | _ => []).filter
              (fun l => l.id != logo.id)) ++ [logo]))
        version := some nowVersion
        lastUpdated := some nowISO
        metadata := some
          { m.metadata.getD defaultMetadata with lastModifiedBy := some "Admin Web Interface" } }

/-! ## MQTT configuration (config/mqtt.js) and DeviceControlService -/

/-- The `MQTT_TOPICS` constant object. -/
structure MqttTopicsConfig where
  commands : String
  updateStatus : String
  resetStatus : String
  bannerUpdate : String
  bannerDelete : String
  bannerSync : String
  manifestRefresh : String
  status : String
deriving DecidableEq

/-- Values of `MQTT_TOPICS` in config/mqtt.js. -/
def MQTT_TOPICS : MqttTopicsConfig where
  commands := "its/billboard/commands"
  updateStatus := "its/billboard/update/status"
  resetStatus := "its/billboard/reset/status"
  bannerUpdate := "its/billboard/banner/update"
  bannerDelete := "its/billboard/banner/delete"
  bannerSync := "its/billboard/banner/sync"
  manifestRefresh := "its/billboard/manifest/refresh"
  status := "its/billboard/status"

/-- DeviceControlService.triggerUpdate: result (`Except.error` = throw) and
the list of `(topic, action)` publishes issued.  `publishOk` abstracts
whether `mqtt.publish` resolves. -/
def deviceControlTriggerUpdate (connected inProgress : Bool) (version : String)
    (publishOk : Bool) : Except String Bool × List (String × String) :=
  if !connected then (Except.error "MQTT not connected", [])
  else if inProgress then (Except.error "Update already in progress", [])
  else if publishOk then (Except.ok true, [(MQTT_TOPICS.commands, "force_update")])
  else (Except.error "publish failed", [(MQTT_TOPICS.commands, "force_update")])

/-- DeviceControlService.triggerReset. -/
def deviceControlTriggerReset (connected : Bool) (publishOk : Bool) :
    Except String Bool × List (String × String) :=
  if !connected then (Except.error "MQTT not connected", [])
  else if publishOk then (Except.ok true, [(MQTT_TOPICS.commands, "reset_app")])
  else (Except.error "publish failed", [(MQTT_TOPICS.commands, "reset_app")])

/-- MqttBroker.subscribeToDefaultTopics: the topics subscribed, guarded by
`this.client && this.client.connected`. -/
def subscribeToDefaultTopics (clientPresent clientConnected : Bool) : List String :=
  if clientPresent && clientConnected then
    [MQTT_TOPICS.updateStatus, MQTT_TOPICS.resetStatus, MQTT_TOPICS.status]
  else []

/-! ## MqttBroker connection state machine (services/mqtt-broker.js)

`connect()` passes `reconnectPeriod: Math.min(1000 * Math.pow(1.5, this.reconnectAttempts), 30000)`
to `mqtt.connect`; the mqtt.js client then waits exactly that period before
every reconnection attempt of the client's lifetime.  The `reconnect`
handler computes an exponential `backoffDelay`, but uses it only in a
`console.log`; it never reconfigures the client.  Periods are modelled as
exact fractions `num / den` of milliseconds with `den` a power of two, so
`Math.pow(1.5, n)` is represented exactly. -/

/-- The mqtt.js client as the broker sees it: the `reconnectPeriod` option
captured at `mqtt.connect` time, and the client's own `connected` flag. -/
structure MqttClientState where
  reconnectPeriodNum : Nat
  reconnectPeriodDen : Nat
  clientConnected : Bool
deriving DecidableEq

/-- Exact value of `Math.min(1000 * Math.pow(1.5, attempts), 30000)` as a
fraction (numerator, denominator). -/
def connectReconnectPeriod (attempts : Nat) : Nat × Nat :=
  if 1000 * 3 ^ attempts ≤ 30000 * 2 ^ attempts then (1000 * 3 ^ attempts, 2 ^ attempts)
  else (30000, 1)

/-- Exact value of the `backoffDelay` the reconnect handler logs,
`Math.min(1000 * Math.pow(1.5, reconnectAttempts - 1), 30000)`. -/
def reconnectBackoffLog (attempts : Nat) : Nat × Nat :=
  connectReconnectPeriod (attempts - 1)

/-- MqttBroker instance state. -/
structure BrokerState where
  client : Option MqttClientState
  connected : Bool
  connectionStatus : String
  reconnectAttempts : Nat
  maxReconnectAttempts : Nat
  isReconnecting : Bool
deriving DecidableEq

/-- State set up by the MqttBroker constructor. -/
def initialBroker : BrokerState :=
  ⟨none, false, "disconnected", 0, 10, false⟩

/-- Operations on the broker: the public `connect`/`disconnect` calls and
the mqtt.js client events handled in `setupEventHandlers`. -/
inductive BrokerOp where
  | connectCall
  | disconnectCall
  | evConnect
  | evDisconnect
  | evReconnect
  | evError
  | evClose
  | evMessage
deriving DecidableEq

/-- MqttBroker.updateStatus: stores the status string (callbacks are
side effects outside the state). -/
def updateStatus (s : BrokerState) (st : String) : BrokerState :=
  { s with connectionStatus := st }

/-- Body of MqttBroker.disconnect(): only acts when a client exists. -/
def applyDisconnect (s : BrokerState) : BrokerState :=
  match s.client with
  | some _ =>
      updateStatus
        { s with
          client := none
          connected := false }
        "disconnected"
  | none => s

/-- One broker operation.  `connectCall` captures the computed
`reconnectPeriod` in the fresh client; the `reconnect` handler increments
the attempt counter and either gives up (disconnect + "error") at the
max or reports "reconnecting" — it never touches the client's period. -/
def brokerStep (s : BrokerState) : BrokerOp → BrokerState
  | .connectCall =>
      updateStatus
        { s with
          client := some ⟨(connectReconnectPeriod s.reconnectAttempts).1,
            (connectReconnectPeriod s.reconnectAttempts).2, false⟩ }
        "connecting"
  | .evConnect =>
      updateStatus
        { s with
          connected := true
          reconnectAttempts := 0
          isReconnecting := false
          client := s.client.map (fun c => { c with clientConnected := true }) }
        "connected"
  | .evDisconnect => updateStatus { s with connected := false } "disconnected"
  | .evReconnect =>
      if s.reconnectAttempts + 1 ≥ s.maxReconnectAttempts then
        updateStatus
          (applyDisconnect
            { s with
              reconnectAttempts := s.reconnectAttempts + 1
              isReconnecting := true })
          "error"
      else
        updateStatus
          { s with
            reconnectAttempts := s.reconnectAttempts + 1
            isReconnecting := true }
          "reconnecting"
  | .evError => updateStatus s "error"
  | .evClose => updateStatus { s with connected := false } "disconnected"
  | .evMessage => s
  | .disconnectCall => applyDisconnect s

/-- A run of the broker from its constructor state. -/
def runBroker (ops : List BrokerOp) : BrokerState :=
  ops.foldl brokerStep initialBroker

/-- Iterated `reconnect` events. -/
def reconnectN : Nat → BrokerState → BrokerState
  | 0, s => s
  | n + 1, s => reconnectN n (brokerStep s .evReconnect)

/-- The five status strings the broker ever stores. -/
def allowedStatuses : List String :=
  ["disconnected", "connecting", "connected", "reconnecting", "error"]

/-! ## UpdateService.triggerUpdate (update-service.js) -/

/-- JavaScript whitespace for `String.prototype.trim`, restricted to the
common ASCII whitespace characters (the Unicode extras are not modelled). -/
def isJsWhitespace (ch : Char) : Bool :=
  ch = ' ' || ch = '\t' || ch = '\n' || ch = '\r'

/-- Characters of a string after `trim()`. -/
def trimCharList (l : List Char) : List Char :=
  ((l.dropWhile isJsWhitespace).reverse.dropWhile isJsWhitespace).reverse

/-- JavaScript `version.trim()`. -/
def jsTrim (s : String) : String := String.mk (trimCharList s.data)

/-- The UpdateService fields `triggerUpdate` touches. -/
structure UpdateState where
  currentUpdateVersion : Option String
  updateInProgress : Bool
  updateStartTime : Option Int
deriving DecidableEq

/-- Events `triggerUpdate` emits (`error` with its `code`, `statusChange`
with its `status`). -/
inductive UpdateEvent where
  | errorEv (code : String)
  | statusChangeEv (status : String)
deriving DecidableEq

/-- UpdateService.triggerUpdate: returns the resolved value, the state
afterwards and the events emitted, in order.  `mqttConnected` models
`window.MqttClient && window.MqttClient.connected`; `publishOk` whether
the MQTT publish resolves. -/
def triggerUpdate (s : UpdateState) (version : String) (mqttConnected publishOk : Bool)
    (now : Int) : Bool × UpdateState × List UpdateEvent :=
  if version = "" ∨ jsTrim version = "" then
    (false, s, [UpdateEvent.errorEv "INVALID_VERSION"])
  else if s.updateInProgress then
    (false, s, [UpdateEvent.errorEv "UPDATE_IN_PROGRESS"])
  else if !mqttConnected then
    (false, ⟨some version, false, some now⟩,
      [UpdateEvent.statusChangeEv "initializing", UpdateEvent.errorEv "TRIGGER_FAILED"])
  else if !publishOk then
    (false, ⟨some version, false, some now⟩,
      [UpdateEvent.statusChangeEv "initializing", UpdateEvent.errorEv "TRIGGER_FAILED"])
  else
    (true, ⟨some version, true, some now⟩,
      [UpdateEvent.statusChangeEv "initializing", UpdateEvent.statusChangeEv "downloading"])

/-! ## Claim theorems -/

/-- Claim C10: for every machine-id key (char codes of hex digits, as
`Math.abs(hash).toString(16)` produces) and every token string whose
characters all have char codes below 256,
`deobfuscateToken (obfuscateToken token)` equals `token`: the
per-character XOR with the repeating machine-id key followed by `btoa`,
then `atob` followed by the same XOR, is the identity. -/
theorem obfuscation_roundtrip (key token : List Nat)
    (hk : ∀ c ∈ key, isMachineIdChar c) (ht : ∀ c ∈ token, c < 256) :
    (obfuscateToken key token).bind (deobfuscateToken key) = some token :=
  deobfuscate_obfuscate key token (fun c hc => machineIdChar_lt c (hk c hc)) ht

/-- Witness for `obfuscation_roundtrip`: key "a", token "tok". -/
theorem obfuscation_roundtrip_witness :
    (∀ c ∈ [97], isMachineIdChar c) ∧ (∀ c ∈ [116, 111, 107], c < 256) ∧
    (obfuscateToken [97] [116, 111, 107]).bind (deobfuscateToken [97])
      = some [116, 111, 107] :=
  ⟨by decide, by decide, obfuscation_roundtrip [97] [116, 111, 107] (by decide) (by decide)⟩

/-- Claim C7 (amended): `getStoredToken` returns the stored token exactly
when a record exists, its machineId matches, it is unexpired and
deobfuscation succeeds with a non-empty token; in every other case it
returns null and the record is removed (the `!token` truthiness check
also clears a record whose token deobfuscates to the empty string). -/
theorem getStoredToken_spec (mid : List Nat) (now : Int) (st : Option AuthData) :
    ((getStoredToken mid now st).1 = none → (getStoredToken mid now st).2 = none) ∧
    (∀ a t, st = some a → a.machineId = mid → ¬ a.expiresAt < now →
      deobfuscateToken mid a.token = some t → t ≠ [] →
      getStoredToken mid now st = (some ⟨t, a.userLogin, a.storedAt⟩, st)) ∧
    (∀ r, (getStoredToken mid now st).1 = some r →
      ∃ a, st = some a ∧ a.machineId = mid ∧ ¬ a.expiresAt < now ∧
        deobfuscateToken mid a.token = some r.token ∧ r.token ≠ []) := by
  refine ⟨?_, ?_, ?_⟩
  · cases st with
    | none => intro _; rfl
    | some a =>
        intro h1
        simp only [getStoredToken] at h1 ⊢
        by_cases hm : a.machineId ≠ mid
        · simp [hm]
        · rw [if_neg hm] at h1 ⊢
          by_cases he : a.expiresAt < now
          · simp [he]
          · rw [if_neg he] at h1 ⊢
            cases hd : deobfuscateToken mid a.token with
            | none => simp [hd]
            | some t =>
                simp only [hd] at h1 ⊢
                by_cases ht : t = []
                · simp [ht]
                · simp [ht] at h1
  · intro a t hst hm he hd ht
    subst hst
    simp only [getStoredToken]
    rw [if_neg (by simpa using hm), if_neg he]
    simp only [hd]
    rw [if_neg ht]
  · cases st with
    | none => intro r hr; simp [getStoredToken] at hr
    | some a =>
        intro r hr
        simp only [getStoredToken] at hr
        by_cases hm : a.machineId ≠ mid
        · simp [hm] at hr
        · rw [if_neg hm] at hr
          by_cases he : a.expiresAt < now
          · simp [he] at hr
          · rw [if_neg he] at hr
            cases hd : deobfuscateToken mid a.token with
            | none => simp [hd] at hr
            | some t =>
                simp only [hd] at hr
                by_cases ht : t = []
                · simp [ht] at hr
                · rw [if_neg ht] at hr
                  simp only [Option.some.injEq] at hr
                  refine ⟨a, rfl, by simpa using hm, he, ?_, ?_⟩
                  · rw [hd, ← hr]
                  · rw [← hr]
                    exact ht

/-- Counterexample for claim C7 as stated: a record whose stored (obfuscated)
token is the empty string satisfies every condition of the claim — record
present, machineId matches, expiresAt in the future, deobfuscation
succeeds — yet `getStoredToken` returns null and clears the record,
because the deobfuscated empty string is falsy. -/
theorem getStoredToken_emptyToken_counterexample :
    obfuscateToken [97] [] = some [] ∧
    deobfuscateToken [97] [] = some [] ∧
    getStoredToken [97] 50 (some ⟨[], none, [97], 0, 100⟩) = (none, none) ∧
    ¬ (100 : Int) < 50 := by decide

/-- Witness for `getStoredToken_spec`: a stored record for token "t"
(obfuscated with key "a" to "FQ==") is returned intact. -/
theorem getStoredToken_spec_witness :
    getStoredToken [97] 50 (some ⟨[70, 81, 61, 61], some "u", [97], 7, 100⟩)
      = (some ⟨[116], some "u", 7⟩, some ⟨[70, 81, 61, 61], some "u", [97], 7, 100⟩) :=
  (getStoredToken_spec [97] 50 (some ⟨[70, 81, 61, 61], some "u", [97], 7, 100⟩)).2.1
    ⟨[70, 81, 61, 61], some "u", [97], 7, 100⟩ [116] rfl rfl (by decide) (by decide) (by decide)

/-- Claim C9: if every attempt, including the last allowed one, receives an
HTTP 403 response whose message mentions the rate limit, the retry loop of
`makeApiRequest` exits through its rate-limit `continue` branch and the
call resolves with `undefined` instead of rejecting. -/
theorem makeApiRequest_rateLimited_resolves (f : Nat → FetchOutcome)
    (h1 : f 1 = FetchOutcome.rateLimited403) (h2 : f 2 = FetchOutcome.rateLimited403)
    (h3 : f 3 = FetchOutcome.rateLimited403) :
    (makeApiRequest f).1 = Except.ok none := by
  have hall : ∀ i, 1 ≤ i → i ≤ 3 → f i = FetchOutcome.rateLimited403 := by
    intro i hi1 hi2
    interval_cases i <;> assumption
  exact makeApiRequestGo_allRateLimited f 3 hall 4 1 (by omega)

/-- Witness for `makeApiRequest_rateLimited_resolves`. -/
theorem makeApiRequest_rateLimited_resolves_witness :
    (makeApiRequest (fun _ => FetchOutcome.rateLimited403)).1 = Except.ok none :=
  makeApiRequest_rateLimited_resolves (fun _ => FetchOutcome.rateLimited403) rfl rfl rfl

/-- Claim C1 (amended): `makeApiRequest` defaults `retries` to 3 and issues
at most 3 fetch attempts per call; a call whose final attempt is reached
and does not yield an ok response rejects with an error, except when that
final response is a 403 mentioning the rate limit, in which case the call
resolves with `undefined`. -/
theorem makeApiRequest_retry_policy (f : Nat → FetchOutcome) :
    makeApiRequest f = makeApiRequest f 3 ∧
    (makeApiRequest f 3).2.length ≤ 3 ∧
    (3 ∈ (makeApiRequest f 3).2 → f 3 ≠ FetchOutcome.ok →
      (f 3 = FetchOutcome.rateLimited403 ∧ (makeApiRequest f 3).1 = Except.ok none) ∨
      ∃ e, (makeApiRequest f 3).1 = Except.error e) := by
  refine ⟨rfl, ?_, ?_⟩
  · have h := makeApiRequestGo_length f 3 4 1
    simpa [makeApiRequest] using h
  · intro hm hok
    exact makeApiRequestGo_final f 3 4 1 (by omega) hm hok

/-- Counterexample for claim C1 as stated: with every attempt answered by a
403 rate-limit response, all 3 attempts are made, the final attempt does
not yield an ok response, and yet the call resolves (with `undefined`)
instead of rejecting. -/
theorem makeApiRequest_no_reject_on_rateLimit :
    (makeApiRequest (fun _ => FetchOutcome.rateLimited403) 3).1 = Except.ok none ∧
    (makeApiRequest (fun _ => FetchOutcome.rateLimited403) 3).2 = [1, 2, 3] ∧
    FetchOutcome.rateLimited403 ≠ FetchOutcome.ok :=
  ⟨rfl, rfl, by decide⟩

/-- Witness for `makeApiRequest_retry_policy`: all attempts 404. -/
theorem makeApiRequest_retry_policy_witness :
    (makeApiRequest (fun _ => FetchOutcome.status404) 3).2.length ≤ 3 ∧
    (((fun _ => FetchOutcome.status404) 3 = FetchOutcome.rateLimited403 ∧
        (makeApiRequest (fun _ => FetchOutcome.status404) 3).1 = Except.ok none) ∨
      ∃ e, (makeApiRequest (fun _ => FetchOutcome.status404) 3).1 = Except.error e) :=
  ⟨(makeApiRequest_retry_policy (fun _ => FetchOutcome.status404)).2.1,
    (makeApiRequest_retry_policy (fun _ => FetchOutcome.status404)).2.2
      (by decide) (by decide)⟩

/-- Claim C3: for every manifest whose logos entries have pairwise-distinct
id fields and every logo metadata, `addLogoToManifest` returns a manifest
that contains the new logo and whose logos entries again have
pairwise-distinct id fields: any pre-existing entry with the same id is
removed (by the filter) before the new one is appended. -/
theorem addLogoToManifest_id_uniqueness (nv ni : String) (m : Manifest)
    (logo : Logo) (ls : List Logo) (hl : m.logos = JVal.val ls)
    (hn : (ls.map Logo.id).Nodup) :
    ∃ m' l', addLogoToManifest nv ni m logo = some m' ∧ m'.logos = JVal.val l' ∧
      logo ∈ l' ∧ (l'.map Logo.id).Nodup ∧ ∀ x ∈ l', x.id = logo.id → x = logo := by
  have hperm : (sortLogosByPriority ((ls.filter (fun l => l.id != logo.id)) ++ [logo])).Perm
      ((ls.filter (fun l => l.id != logo.id)) ++ [logo]) := List.mergeSort_perm _ _
  have hfilter_nodup : ((ls.filter (fun l => l.id != logo.id)).map Logo.id).Nodup :=
    hn.sublist ((List.filter_sublist ls).map Logo.id)
  have hnotmem : logo.id ∉ (ls.filter (fun l => l.id != logo.id)).map Logo.id := by
    intro hmem
    rcases List.mem_map.1 hmem with ⟨x, hx, hxid⟩
    have hne := (List.mem_filter.1 hx).2
    simp [hxid] at hne
  have hbase_nodup : (((ls.filter (fun l => l.id != logo.id)) ++ [logo]).map Logo.id).Nodup := by
    rw [List.map_append]
    simp [List.nodup_append, hfilter_nodup, hnotmem]
  refine ⟨{ m with
      logos := JVal.val (sortLogosByPriority ((ls.filter (fun l => l.id != logo.id)) ++ [logo]))
      version := some nv
      lastUpdated := some ni
      metadata := some
        { m.metadata.getD defaultMetadata with
          lastModifiedBy := some "Admin Web Interface" } },
    sortLogosByPriority ((ls.filter (fun l => l.id != logo.id)) ++ [logo]),
    ?_, rfl, ?_, ?_, ?_⟩
  · simp [addLogoToManifest, hl]
  · exact hperm.mem_iff.2 (by simp)
  · exact ((hperm.map Logo.id).nodup_iff).2 hbase_nodup
  · intro x hx hxid
    rcases List.mem_append.1 (hperm.mem_iff.1 hx) with hx2 | hx2
    · have hne := (List.mem_filter.1 hx2).2
      simp [hxid] at hne
    · simpa using hx2

/-- Witness for `addLogoToManifest_id_uniqueness`: replacing logo "a". -/
theorem addLogoToManifest_id_uniqueness_witness :
    ∃ m' l',
      addLogoToManifest "v2" "d2"
        ⟨none, none, JVal.val [⟨"a", 2⟩, ⟨"b", 1⟩], JVal.absent, none⟩ ⟨"a", 5⟩ = some m' ∧
      m'.logos = JVal.val l' ∧ (⟨"a", 5⟩ : Logo) ∈ l' ∧ (l'.map Logo.id).Nodup ∧
      ∀ x ∈ l', x.id = (⟨"a", 5⟩ : Logo).id → x = ⟨"a", 5⟩ :=
  addLogoToManifest_id_uniqueness "v2" "d2"
    ⟨none, none, JVal.val [⟨"a", 2⟩, ⟨"b", 1⟩], JVal.absent, none⟩ ⟨"a", 5⟩
    [⟨"a", 2⟩, ⟨"b", 1⟩] rfl (by decide)

/-- Claim C5 (amended): every manifest returned by `getCurrentManifest` has a
logos field that is an array ([] when the stored document lacks one or it
is not an array); its settings field is the stored one when that is an
object and the default `{logoMode: "loop", logoLoopDuration: 30,
schedules: []}` when the stored one is missing or falsy — but a truthy
non-object settings value survives (`validateAndFixManifest` only checks
`!settings`); when no manifest exists or loading fails,
`createDefaultManifest` supplies logos = [] and the default settings. -/
theorem getCurrentManifest_shape (nv ni : String) (fr : ManifestFetch) :
    (∃ l, (getCurrentManifest nv ni fr).logos = JVal.val l) ∧
    (∀ m, fr = ManifestFetch.parsed m → m.logos.jsFalsy = true →
      (getCurrentManifest nv ni fr).logos = JVal.val []) ∧
    (∀ m, fr = ManifestFetch.parsed m → m.logos = JVal.otherTruthy →
      (getCurrentManifest nv ni fr).logos = JVal.val []) ∧
    (∀ m, fr = ManifestFetch.parsed m → m.settings.jsFalsy = true →
      (getCurrentManifest nv ni fr).settings = JVal.val defaultSettings) ∧
    (∀ m s, fr = ManifestFetch.parsed m → m.settings = JVal.val s →
      (getCurrentManifest nv ni fr).settings = JVal.val s) ∧
    ((fr = ManifestFetch.noFile ∨ fr = ManifestFetch.loadError) →
      getCurrentManifest nv ni fr = createDefaultManifest nv ni) ∧
    (createDefaultManifest nv ni).logos = JVal.val [] ∧
    (createDefaultManifest nv ni).settings = JVal.val defaultSettings := by
  refine ⟨?_, ?_, ?_, ?_, ?_, ?_, rfl, rfl⟩
  · cases fr with
    | parsed m =>
        rcases hml : m.logos with _ | _ | _ | l
        · exact ⟨[], by simp [getCurrentManifest, validateAndFixManifest, hml]⟩
        · exact ⟨[], by simp [getCurrentManifest, validateAndFixManifest, hml]⟩
        · exact ⟨[], by simp [getCurrentManifest, validateAndFixManifest, hml]⟩
        · exact ⟨l, by simp [getCurrentManifest, validateAndFixManifest, hml]⟩
    | noFile => exact ⟨[], rfl⟩
    | loadError => exact ⟨[], rfl⟩
  · intro m' heq hf
    subst heq
    rcases hml : m'.logos with _ | _ | _ | l
    · simp [getCurrentManifest, validateAndFixManifest, hml]
    · simp [getCurrentManifest, validateAndFixManifest, hml]
    · simp [getCurrentManifest, validateAndFixManifest, hml]
    · rw [hml] at hf
      simp [JVal.jsFalsy] at hf
  · intro m' heq ho
    subst heq
    simp [getCurrentManifest, validateAndFixManifest, ho]
  · intro m' heq hf
    subst heq
    simp [getCurrentManifest, validateAndFixManifest, hf]
  · intro m' s heq hs
    subst heq
    simp [getCurrentManifest, validateAndFixManifest, hs, JVal.jsFalsy]
  · rintro (h | h) <;> subst h <;> rfl

/-- Counterexample for claim C5 as stated: a stored document whose settings
field is a truthy non-object survives `validateAndFixManifest` unchanged,
so the manifest returned by `getCurrentManifest` does not have a settings
object. -/
theorem getCurrentManifest_settings_counterexample :
    (getCurrentManifest "v" "d"
        (ManifestFetch.parsed
          ⟨some "1.0", some "d0", JVal.val [], JVal.otherTruthy, some defaultMetadata⟩)).settings
      = JVal.otherTruthy ∧
    JVal.otherTruthy ≠ JVal.val defaultSettings := by decide

/-- Witness for `getCurrentManifest_shape`: a document missing both fields. -/
theorem getCurrentManifest_shape_witness :
    (getCurrentManifest "v" "d"
        (ManifestFetch.parsed ⟨none, none, JVal.absent, JVal.otherFalsy, none⟩)).logos
      = JVal.val [] ∧
    (getCurrentManifest "v" "d"
        (ManifestFetch.parsed ⟨none, none, JVal.absent, JVal.otherFalsy, none⟩)).settings
      = JVal.val defaultSettings :=
  ⟨(getCurrentManifest_shape "v" "d" _).2.1 _ rfl rfl,
    (getCurrentManifest_shape "v" "d" _).2.2.2.1 _ rfl rfl⟩

/-- Claim C4 (amended): if an update is already in progress, then for every
version that is non-blank (non-empty after trimming), `triggerUpdate`
returns false after emitting an error event with code
"UPDATE_IN_PROGRESS" and leaves the state (updateInProgress,
currentUpdateVersion, updateStartTime) unchanged.  (A blank version is
caught by the earlier validation and emits "INVALID_VERSION" instead.) -/
theorem triggerUpdate_inProgress (s : UpdateState) (version : String)
    (mc pok : Bool) (now : Int) (hp : s.updateInProgress = true)
    (hv : jsTrim version ≠ "") :
    triggerUpdate s version mc pok now
      = (false, s, [UpdateEvent.errorEv "UPDATE_IN_PROGRESS"]) := by
  have hv0 : ¬ (version = "" ∨ jsTrim version = "") := by
    rintro (h | h)
    · subst h
      exact hv (by decide)
    · exact hv h
  simp [triggerUpdate, hv0, hp]

/-- Counterexample for claim C4 as stated: with an update in progress and a
blank version, `triggerUpdate` still returns false and leaves the state
unchanged, but the emitted error code is "INVALID_VERSION", not
"UPDATE_IN_PROGRESS". -/
theorem triggerUpdate_blank_counterexample :
    triggerUpdate ⟨some "1.0", true, some 5⟩ "" true true 9
      = (false, ⟨some "1.0", true, some 5⟩, [UpdateEvent.errorEv "INVALID_VERSION"]) ∧
    (⟨some "1.0", true, some 5⟩ : UpdateState).updateInProgress = true ∧
    UpdateEvent.errorEv "INVALID_VERSION" ≠ UpdateEvent.errorEv "UPDATE_IN_PROGRESS" := by
  decide

/-- Witness for `triggerUpdate_inProgress`. -/
theorem triggerUpdate_inProgress_witness :
    triggerUpdate ⟨some "2.0", true, some 1⟩ "3.0" true true 7
      = (false, ⟨some "2.0", true, some 1⟩, [UpdateEvent.errorEv "UPDATE_IN_PROGRESS"]) :=
  triggerUpdate_inProgress ⟨some "2.0", true, some 1⟩ "3.0" true true 7 rfl (by decide)

/-- Claim C6: device commands and status traffic use fixed topic strings:
every publish issued by `DeviceControlService.triggerUpdate` /
`triggerReset` goes to "its/billboard/commands" with actions
"force_update" / "reset_app" (and is issued whenever the guards pass),
and `subscribeToDefaultTopics` subscribes to exactly
"its/billboard/update/status", "its/billboard/reset/status" and
"its/billboard/status" (and to nothing when the client guard fails). -/
theorem fixed_command_topics (c ip ok : Bool) (v : String) :
    (∀ p ∈ (deviceControlTriggerUpdate c ip v ok).2,
      p.1 = "its/billboard/commands" ∧ p.2 = "force_update") ∧
    (∀ p ∈ (deviceControlTriggerReset c ok).2,
      p.1 = "its/billboard/commands" ∧ p.2 = "reset_app") ∧
    ((c && !ip) = true → (deviceControlTriggerUpdate c ip v ok).2
      = [("its/billboard/commands", "force_update")]) ∧
    (c = true → (deviceControlTriggerReset c ok).2
      = [("its/billboard/commands", "reset_app")]) ∧
    subscribeToDefaultTopics true true =
      ["its/billboard/update/status", "its/billboard/reset/status", "its/billboard/status"] ∧
    (∀ cp cc : Bool, subscribeToDefaultTopics cp cc = [] ∨
      subscribeToDefaultTopics cp cc =
        ["its/billboard/update/status", "its/billboard/reset/status", "its/billboard/status"]) := by
  cases c <;> cases ip <;> cases ok <;>
    refine ⟨?_, ?_, ?_, ?_, by decide, ?_⟩ <;>
    first
    | decide
    | simp [deviceControlTriggerUpdate, deviceControlTriggerReset,
        subscribeToDefaultTopics, MQTT_TOPICS]

/-- Witness for `fixed_command_topics`. -/
theorem fixed_command_topics_witness :
    (deviceControlTriggerUpdate true false "1.0" true).2
      = [("its/billboard/commands", "force_update")] ∧
    (deviceControlTriggerReset true true).2 = [("its/billboard/commands", "reset_app")] ∧
    subscribeToDefaultTopics true true =
      ["its/billboard/update/status", "its/billboard/reset/status", "its/billboard/status"] :=
  ⟨(fixed_command_topics true false true "1.0").2.2.1 rfl,
    (fixed_command_topics true true true "1.0").2.2.2.1 rfl,
    (fixed_command_topics true true true "1.0").2.2.2.2.1⟩

theorem brokerStep_status_mem (s : BrokerState) (op : BrokerOp)
    (h : s.connectionStatus ∈ allowedStatuses) :
    (brokerStep s op).connectionStatus ∈ allowedStatuses := by
  cases op with
  | connectCall => simp [brokerStep, updateStatus, allowedStatuses]
  | evConnect => simp [brokerStep, updateStatus, allowedStatuses]
  | evDisconnect => simp [brokerStep, updateStatus, allowedStatuses]
  | evReconnect =>
      by_cases hmax : s.reconnectAttempts + 1 ≥ s.maxReconnectAttempts
      · cases hc : s.client <;>
          simp [brokerStep, hmax, updateStatus, applyDisconnect, hc, allowedStatuses]
      · simp [brokerStep, hmax, updateStatus, allowedStatuses]
  | evError => simp [brokerStep, updateStatus, allowedStatuses]
  | evClose => simp [brokerStep, updateStatus, allowedStatuses]
  | evMessage => simpa [brokerStep] using h
  | disconnectCall =>
      cases hc : s.client with
      | none => simpa [brokerStep, applyDisconnect, hc] using h
      | some cl => simp [brokerStep, applyDisconnect, hc, updateStatus, allowedStatuses]

theorem foldl_status_mem : ∀ (ops : List BrokerOp) (s : BrokerState),
    s.connectionStatus ∈ allowedStatuses →
    (ops.foldl brokerStep s).connectionStatus ∈ allowedStatuses := by
  intro ops
  induction ops with
  | nil => intro s h; exact h
  | cons op rest ih =>
      intro s h
      exact ih (brokerStep s op) (brokerStep_status_mem s op h)

/-- Claim C8: `connectionStatus` starts as "disconnected" and, across every
sequence of connect/disconnect calls and client events, only ever holds
one of the five strings "disconnected", "connecting", "connected",
"reconnecting", "error" (each operation sets it only via `updateStatus`
with one of these strings). -/
theorem mqttBroker_status_invariant :
    initialBroker.connectionStatus = "disconnected" ∧
    ∀ ops : List BrokerOp, (runBroker ops).connectionStatus ∈ allowedStatuses :=
  ⟨rfl, fun ops =>
    foldl_status_mem ops initialBroker (by simp [initialBroker, allowedStatuses])⟩

theorem brokerStep_reconnect_client (s : BrokerState) (c : MqttClientState)
    (h : (brokerStep s BrokerOp.evReconnect).client = some c) : s.client = some c := by
  by_cases hmax : s.reconnectAttempts + 1 ≥ s.maxReconnectAttempts
  · exfalso
    cases hc : s.client <;> simp [brokerStep, hmax, updateStatus, applyDisconnect, hc] at h
  · simpa [brokerStep, hmax, updateStatus] using h

theorem reconnectN_client : ∀ (n : Nat) (s : BrokerState) (c : MqttClientState),
    (reconnectN n s).client = some c → s.client = some c := by
  intro n
  induction n with
  | zero => intro s c h; exact h
  | succ n ih =>
      intro s c h
      exact brokerStep_reconnect_client s c (ih (brokerStep s BrokerOp.evReconnect) c h)

/-- Claim C2: the MQTT reconnect handling uses a fixed backoff: the delay the
mqtt.js client waits before a reconnection attempt is the
`reconnectPeriod` captured when `connect()` created the client, and
however many reconnect events have occurred, a still-alive client carries
that same period (the exponential `backoffDelay` in the handler is only
logged); a fresh broker's `connect()` sets the period to exactly
1000 ms (numerator 1000, denominator 1). -/
theorem mqtt_fixed_reconnect_delay (s : BrokerState) (n : Nat) (c : MqttClientState)
    (h : (reconnectN n s).client = some c) :
    s.client = some c ∧
    (reconnectN n s).client.map (fun cl => (cl.reconnectPeriodNum, cl.reconnectPeriodDen))
      = s.client.map (fun cl => (cl.reconnectPeriodNum, cl.reconnectPeriodDen)) ∧
    (brokerStep initialBroker BrokerOp.connectCall).client = some ⟨1000, 1, false⟩ := by
  have h0 : s.client = some c := reconnectN_client n s c h
  refine ⟨h0, ?_, by decide⟩
  rw [h, h0]

/-- Witness for `mqtt_fixed_reconnect_delay`: five reconnect events after a
fresh connect leave the 1000 ms period in place. -/
theorem mqtt_fixed_reconnect_delay_witness :
    (brokerStep initialBroker BrokerOp.connectCall).client = some ⟨1000, 1, false⟩ ∧
    (reconnectN 5 (brokerStep initialBroker BrokerOp.connectCall)).client.map
        (fun cl => (cl.reconnectPeriodNum, cl.reconnectPeriodDen))
      = (brokerStep initialBroker BrokerOp.connectCall).client.map
        (fun cl => (cl.reconnectPeriodNum, cl.reconnectPeriodDen)) :=
  ⟨(mqtt_fixed_reconnect_delay (brokerStep initialBroker BrokerOp.connectCall) 5
      ⟨1000, 1, false⟩ (by decide)).1.symm ▸ rfl,
    (mqtt_fixed_reconnect_delay (brokerStep initialBroker BrokerOp.connectCall) 5
      ⟨1000, 1, false⟩ (by decide)).2.1⟩
